import Mathlib

/-!
Verification of the mnist-gan repository against its specification.

The development shallowly embeds the two source programs:

* `src/mnist-gan.py` — the GAN training script: hyperparameter constants,
  the label-tensor construction of the discriminator phase, the layer
  structure of the generator and discriminator (`nn.Sequential`), a
  real-valued forward semantics for both networks, a dependency-tracking
  model of the autograd/optimizer discipline of the two training phases,
  and the logging/snapshot policy.
* `src/video-generator.py` — the ffmpeg command builder.
-/

namespace MnistGan

/-! ### Hyperparameter constants, `mnist-gan.py` lines 65-71 -/

def BATCH_SIZE : ℕ := 200

def EPOCHS : ℕ := 20

def LATENT_DIM : ℕ := 100

def REAL_LABEL : ℚ := 1

def FAKE_LABEL : ℚ := 0

/-- Half-batch size `int(BATCH_SIZE/2)`, used for the dataloader and for
the real/fake halves of the discriminator batch (lines 96, 319, 322, 324). -/
def halfBatch : ℕ := BATCH_SIZE / 2

/-! ### Label tensors of the discriminator phase, lines 319-330.

A float tensor of shape `(n,)` is modelled as a `List ℚ`;
`torch.zeros(n).fill_(v)` therefore becomes `List.replicate n v`, and
`torch.cat` becomes list append.  The trailing `.unsqueeze(1)` only adds a
size-1 trailing axis and is dropped. -/

/-- Embeds `real_labels = torch.zeros(int(BATCH_SIZE/2)).fill_(REAL_LABEL)` (line 319). -/
def real_labels : List ℚ := List.replicate halfBatch REAL_LABEL

/-- Embeds `fake_labels = torch.zeros(int(BATCH_SIZE/2)).fill_(FAKE_LABEL)` (line 324). -/
def fake_labels : List ℚ := List.replicate halfBatch FAKE_LABEL

/-- Embeds `labels_all = torch.cat((real_labels, fake_labels))` (line 330). -/
def labels_all : List ℚ := real_labels ++ fake_labels

/-! ### Shape-level semantics of the layer stacks.

Each `nn.Sequential` entry of the source becomes a `Layer`; `applyLayer`
propagates the per-sample tensor shape through one layer, returning `none`
on a shape mismatch exactly where PyTorch would raise. -/

/-- Per-sample tensor shape: a flat feature vector or a `c × h × w` image. -/
inductive Shape where
  | flat (n : ℕ)
  | img (c h w : ℕ)
  deriving DecidableEq, Repr

/-- One entry of an `nn.Sequential` stack, as written in the source. -/
inductive Layer where
  | linear (inF outF : ℕ)
  | batchNorm1d (features : ℕ)
  | batchNorm2d (features : ℕ)
  | leakyReLU (slope : ℚ)
  | reshape (c h w : ℕ)
  | convTranspose2d (inC outC k stride : ℕ)
  | conv2d (inC outC k stride : ℕ)
  | dropout (p : ℚ)
  | flatten
  | tanh
  | sigmoid
  deriving DecidableEq, Repr

/-- Output spatial size of `nn.ConvTranspose2d` with padding 0 (the source
passes no `padding`): `(h - 1) * stride + k`. -/
def convTransposeSize (h k stride : ℕ) : ℕ := (h - 1) * stride + k

/-- Output spatial size of `nn.Conv2d` with padding 0: `(h - k) / stride + 1`. -/
def convSize (h k stride : ℕ) : ℕ := (h - k) / stride + 1

def applyLayer : Shape → Layer → Option Shape
  | .flat n, .linear inF outF => if n = inF then some (.flat outF) else none
  | .flat n, .batchNorm1d f => if n = f then some (.flat n) else none
  | .img c h w, .batchNorm2d f => if c = f then some (.img c h w) else none
  | s, .leakyReLU _ => some s
  | .flat n, .reshape c h w => if n = c * h * w then some (.img c h w) else none
  | .img c h w, .convTranspose2d inC outC k stride =>
      if c = inC then some (.img outC (convTransposeSize h k stride) (convTransposeSize w k stride)) else none
  | .img c h w, .conv2d inC outC k stride =>
      if c = inC ∧ k ≤ h ∧ k ≤ w then some (.img outC (convSize h k stride) (convSize w k stride)) else none
  | s, .dropout _ => some s
  | .img c h w, .flatten => some (.flat (c * h * w))
  | s, .tanh => some s
  | s, .sigmoid => some s
  | _, _ => none

/-- Thread a shape through a layer stack, failing on the first mismatch. -/
def runShape (ls : List Layer) (s : Shape) : Option Shape :=
  ls.foldl (fun acc l => acc.bind (fun sh => applyLayer sh l)) (some s)

/-- The generator's `nn.Sequential` stack, `mnist-gan.py` lines 198-219. -/
def generatorLayers : List Layer :=
  [ .linear LATENT_DIM (128 * 7 * 7),
    .batchNorm1d (128 * 7 * 7),
    .leakyReLU (1 / 5),
    .reshape 128 7 7,
    .convTranspose2d 128 128 4 2,
    .batchNorm2d 128,
    .leakyReLU (1 / 5),
    .convTranspose2d 128 128 4 2,
    .batchNorm2d 128,
    .leakyReLU (1 / 5),
    .conv2d 128 1 7 1,
    .tanh ]

/-- The discriminator's `nn.Sequential` stack, `mnist-gan.py` lines 247-259. -/
def discriminatorLayers : List Layer :=
  [ .conv2d 1 64 3 2,
    .leakyReLU (1 / 5),
    .dropout (2 / 5),
    .conv2d 64 64 3 2,
    .leakyReLU (1 / 5),
    .dropout (2 / 5),
    .flatten,
    .linear 2304 1,
    .sigmoid ]

/-! ### Autograd dependency model of the training loop, lines 310-347.

The frame claims about the two training phases are about *which* parameters
an iteration may write, not about the numeric values written.  We therefore
model:

* a parameter identity `PId` tagged with the network owning it;
* the mutable training state `AGState`: the value and the accumulated
  gradient of every parameter;
* a tensor as the set of parameters its computation graph reaches
  (`Tens`); `.detach()` empties that set, a module forward adds the
  module's own parameters, `torch.cat` unions;
* `loss.backward()` as accumulation of an arbitrary gradient contribution
  `g p` into exactly the parameters reached by the loss;
* `optimizer.step()` as an arbitrary per-parameter update `upd` applied to
  exactly the parameters the optimizer was constructed with, and
  `optimizer.zero_grad()` as zeroing exactly those gradients.

The numeric content of `g` and `upd` (backpropagated derivatives, the Adam
update rule) is universally quantified in the theorems; the spec declares
layer/optimizer numerics out of scope. -/

inductive NetTag where
  | gen
  | disc
  deriving DecidableEq, Repr

/-- Identity of one trainable parameter: owning network and an index. -/
structure PId where
  net : NetTag
  idx : ℕ
  deriving DecidableEq, Repr

/-- The parameter set of `generator.parameters()` (line 300). -/
def genMask : PId → Bool
  | ⟨.gen, _⟩ => true
  | ⟨.disc, _⟩ => false

/-- The parameter set of `discriminator.parameters()` (line 301). -/
def discMask : PId → Bool
  | ⟨.gen, _⟩ => false
  | ⟨.disc, _⟩ => true

/-- A tensor, abstracted to the set of parameters its autograd graph reaches. -/
structure Tens where
  deps : PId → Bool

/-- A graph leaf (dataset batch, `torch.rand` latent batch, label tensor). -/
def Tens.leaf : Tens := ⟨fun _ => false⟩

/-- Models `t.detach()`: cut the tensor out of the autograd graph. -/
def Tens.detach (_ : Tens) : Tens := ⟨fun _ => false⟩

/-- Models `torch.cat((a, b))` (line 329): the graph reaches both halves. -/
def Tens.cat (a b : Tens) : Tens := ⟨fun p => a.deps p || b.deps p⟩

/-- Models `self.model(x)` for the network owning `owned`: the output's graph
reaches the network's own parameters and everything `x` reaches. -/
def modelApply (owned : PId → Bool) (x : Tens) : Tens :=
  ⟨fun p => owned p || x.deps p⟩

/-- Models `Model.predict` (lines 163-164): `self.model(x).detach()`. -/
def modelPredict (owned : PId → Bool) (x : Tens) : Tens :=
  (modelApply owned x).detach

/-- Models `criterion(output, y)`: the loss's graph reaches both arguments. -/
def criterionApply (output y : Tens) : Tens :=
  ⟨fun p => output.deps p || y.deps p⟩

/-- Training state: current value and accumulated gradient per parameter. -/
structure AGState where
  params : PId → ℚ
  grads : PId → ℚ

/-- Models `optimizer.zero_grad()`: zero the gradients of the optimizer's params. -/
def zeroGrad (owned : PId → Bool) (st : AGState) : AGState :=
  { st with grads := fun p => if owned p then 0 else st.grads p }

/-- Models `loss.backward()`: accumulate the gradient contribution `g` into exactly
the parameters reached by the loss's graph. -/
def backward (loss : Tens) (g : PId → ℚ) (st : AGState) : AGState :=
  { st with grads := fun p => if loss.deps p then st.grads p + g p else st.grads p }

/-- Models `optimizer.step()`: rewrite exactly the optimizer's own parameters,
through an arbitrary update rule `upd` of the old value and the gradient. -/
def optStep (upd : ℚ → ℚ → ℚ) (owned : PId → Bool) (st : AGState) : AGState :=
  { st with params := fun p => if owned p then upd (st.params p) (st.grads p) else st.params p }

/-- Models `Model.train_on` (lines 166-171): forward, loss, `loss.backward()`,
`optimizer.step()`, for the network/optimizer owning `owned`. -/
def train_on (upd : ℚ → ℚ → ℚ) (g : PId → ℚ) (owned : PId → Bool)
    (x y : Tens) (st : AGState) : AGState :=
  let output := modelApply owned x
  let loss := criterionApply output y
  let st1 := backward loss g st
  optStep upd owned st1

/-- Phase 1 of a training iteration (lines 318-334): train the
discriminator on the concatenation of a real half-batch and a detached fake
half-batch. -/
def phase1 (upd : ℚ → ℚ → ℚ) (g : PId → ℚ) (st : AGState) : AGState :=
  let real_imgs := Tens.leaf
  let latent_points := Tens.leaf
  let fake_imgs := (modelPredict genMask latent_points).detach
  let st1 := zeroGrad discMask st
  let images_all := Tens.cat real_imgs fake_imgs
  let labels_all_t := Tens.leaf
  train_on upd g discMask images_all labels_all_t st1

/-- Phase 2 of a training iteration (lines 339-347): generate a fresh full
batch (not detached), classify it with the discriminator, backpropagate,
and step the generator optimizer only. -/
def phase2 (upd : ℚ → ℚ → ℚ) (g : PId → ℚ) (st : AGState) : AGState :=
  let st1 := zeroGrad genMask st
  let fake_batch := Tens.leaf
  let fake_batch_labels := Tens.leaf
  let generator_imgs := modelApply genMask fake_batch
  let loss := criterionApply (modelApply discMask generator_imgs) fake_batch_labels
  let st2 := backward loss g st1
  optStep upd genMask st2

/-! ### Logging and snapshot policy, lines 352-363. -/

/-- The guard of the logging branch: `if i % 25 == 0` (line 352). -/
def logAt (i : ℕ) : Bool := i % 25 == 0

/-- Python `'%0wd' % n` for a nonnegative `n`: the decimal digits of `n`,
left-padded with zeros to width `w` (longer renderings are not truncated). -/
def padZeros (w n : ℕ) : String :=
  let s := Nat.repr n
  if s.length < w then String.mk (List.replicate (w - s.length) '0') ++ s else s

/-- The snapshot file name (line 362):
`'figs/plot  epoch ' + '%02d' % epoch + '  batch ' + '%05d' % i + '.png'`. -/
def snapshotName (epoch i : ℕ) : String :=
  "figs/plot  epoch " ++ padZeros 2 epoch ++ "  batch " ++ padZeros 5 i ++ ".png"

/-! ### Provenance of the tensors in the loop body (claim about the
snapshot grid's data source).  Every tensor-producing expression of the
training iteration that the logging block can reach is named by a
constructor. -/

inductive TensorSrc where
  /-- Real half-batch `data[0]` from the dataloader (line 318). -/
  | realData
  /-- Latent half-batch `generate_latent_points(LATENT_DIM, int(BATCH_SIZE/2))` (line 322). -/
  | latentPoints
  /-- Latent full batch `generate_latent_points(LATENT_DIM, BATCH_SIZE)` (line 341). -/
  | fakeBatchLatent
  /-- Detached forward `generator.predict(x)` (lines 163-164). -/
  | genPredict (x : TensorSrc)
  /-- Gradient-tracked forward `generator(x)` (lines 160-161). -/
  | genForward (x : TensorSrc)
  /-- Detached view `x.detach()`. -/
  | detach (x : TensorSrc)
  /-- Slice `x[a, c, :, :]` rendered into one grid cell (line 360). -/
  | index (x : TensorSrc) (a c : ℕ)
  deriving DecidableEq, Repr

/-- Embeds `fake_imgs = generator.predict(latent_points).detach()` (line 323). -/
def fake_imgs : TensorSrc := .detach (.genPredict .latentPoints)

/-- Embeds `generator_imgs = generator(fake_batch)` (line 344). -/
def generator_imgs : TensorSrc := .genForward .fakeBatchLatent

/-- The thirty grid cells rendered by the logging block (lines 358-360):
`plt.imshow(fake_imgs...[a, 0, :, :])` for `a in range(30)`. -/
def snapshotImages : List TensorSrc :=
  (List.range 30).map (fun a => .index fake_imgs a 0)

/-- Does an expression's provenance reach the phase-2 generator batch
(`generator_imgs` or its latent input)? -/
def usesPhase2Batch : TensorSrc → Bool
  | .realData => false
  | .latentPoints => false
  | .fakeBatchLatent => true
  | .genPredict x => usesPhase2Batch x
  | .genForward _ => true
  | .detach x => usesPhase2Batch x
  | .index x _ _ => usesPhase2Batch x

end MnistGan

namespace VideoGen

/-! ### The video assembler, `src/video-generator.py`.

The program parses `--figs` (string, default `'figs/'`), `--framerate`
(int, default `4`), `--out` (string, default `'mnist-gan.mp4'`) and builds

`"ffmpeg -framerate %i -pattern_type glob -i '%s*.png' -c:v libx264 %s"
  % (args.framerate, args.figs, args.out)`

(lines 20-21). -/

/-- Python `'%i' % r` for an `int`: decimal digits, `-`-prefixed if negative. -/
def intStr : Int → String
  | .ofNat m => Nat.repr m
  | .negSucc m => "-" ++ Nat.repr (m + 1)

/-- The command string built on lines 20-21. -/
def command (figs : String) (framerate : Int) (out : String) : String :=
  "ffmpeg -framerate " ++ intStr framerate ++ " -pattern_type glob -i '"
    ++ figs ++ "*.png' -c:v libx264 " ++ out

/-- The command built when every flag keeps its argparse default
(lines 5-10). -/
def defaultCommand : String := command "figs/" 4 "mnist-gan.mp4"

/-- The glob pattern handed to ffmpeg's `-i`, as formed on line 20:
the `--figs` value concatenated directly with `*.png`. -/
def globPattern (figs : String) : String := figs ++ "*.png"

/-- Split a character list into space-separated tokens (empty tokens kept). -/
def tokenize : List Char → List (List Char)
  | [] => [[]]
  | c :: cs =>
    if c = ' ' then [] :: tokenize cs
    else (c :: (tokenize cs).headD []) :: (tokenize cs).tail

/-- The whitespace tokens of a command string. -/
def tokens (s : String) : List (List Char) := tokenize s.data

/-- Lists `xs` and `ys` agree everywhere except at index `i`, where they differ. -/
def diffExactlyAt (xs ys : List (List Char)) (i : ℕ) : Prop :=
  xs.length = ys.length ∧ xs[i]? ≠ ys[i]? ∧ ∀ j, j ≠ i → xs[j]? = ys[j]?

end VideoGen

namespace MnistGan

/-! ### Real-valued forward semantics of the two networks.

A float tensor of shape `(n,)` per sample is `Fin n → ℝ`; an image of shape
`(c, h, w)` is `Fin c → Fin h → Fin w → ℝ`; a batch is a `List` of samples.
`BatchNorm` couples the samples of a batch (training-mode statistics), so
the batch pipelines are defined on lists.  Dropout's Bernoulli draw is an
explicit mask argument, universally quantified in the theorems. -/

noncomputable section

/-- Models `nn.Linear`: `y = W x + b`. -/
def linearF {m n : ℕ} (w : Fin n → Fin m → ℝ) (b : Fin n → ℝ)
    (x : Fin m → ℝ) : Fin n → ℝ :=
  fun j => b j + ∑ i, w j i * x i

/-- Models `nn.LeakyReLU(slope)` on one scalar. -/
def leakyReLU (slope x : ℝ) : ℝ := if 0 ≤ x then x else slope * x

/-- Models `nn.BatchNorm1d` in training mode: normalize each feature by the
batch mean and (biased) batch variance, then scale and shift. -/
def batchNorm1d {n : ℕ} (g b : Fin n → ℝ) (eps : ℝ)
    (xs : List (Fin n → ℝ)) : List (Fin n → ℝ) :=
  let nb : ℝ := (xs.length : ℝ)
  let mu : Fin n → ℝ := fun j => (xs.map (fun x => x j)).sum / nb
  let va : Fin n → ℝ := fun j => (xs.map (fun x => (x j - mu j) ^ 2)).sum / nb
  xs.map (fun x j => g j * ((x j - mu j) / Real.sqrt (va j + eps)) + b j)

/-- Models `nn.BatchNorm2d` in training mode: statistics per channel, taken over
the batch and both spatial dimensions. -/
def batchNorm2d {ch h w : ℕ} (g b : Fin ch → ℝ) (eps : ℝ)
    (xs : List (Fin ch → Fin h → Fin w → ℝ)) : List (Fin ch → Fin h → Fin w → ℝ) :=
  let nb : ℝ := (xs.length : ℝ) * (h : ℝ) * (w : ℝ)
  let mu : Fin ch → ℝ := fun c => (xs.map (fun x => ∑ i, ∑ j, x c i j)).sum / nb
  let va : Fin ch → ℝ :=
    fun c => (xs.map (fun x => ∑ i, ∑ j, (x c i j - mu c) ^ 2)).sum / nb
  xs.map (fun x c i j => g c * ((x c i j - mu c) / Real.sqrt (va c + eps)) + b c)

/-- Models `nn.ConvTranspose2d(ci, co, k, stride=s)` with the default padding 0:
output pixel `(i, j)` collects every input pixel `(p, q)` and kernel offset
`(ki, kj)` with `p * s + ki = i` and `q * s + kj = j`; the weight layout is
`(in_channels, out_channels, k, k)`. -/
def convTranspose2d {ci co h w k : ℕ} (s : ℕ)
    (wt : Fin ci → Fin co → Fin k → Fin k → ℝ) (b : Fin co → ℝ)
    (x : Fin ci → Fin h → Fin w → ℝ) :
    Fin co → Fin ((h - 1) * s + k) → Fin ((w - 1) * s + k) → ℝ :=
  fun o i j => b o + ∑ c, ∑ p : Fin h, ∑ q : Fin w, ∑ ki : Fin k, ∑ kj : Fin k,
    if (p : ℕ) * s + (ki : ℕ) = (i : ℕ) ∧ (q : ℕ) * s + (kj : ℕ) = (j : ℕ) then
      x c p q * wt c o ki kj
    else 0

/-- Models `nn.Conv2d(ci, co, k, stride=s)` with the default padding 0; the weight
layout is `(out_channels, in_channels, k, k)`. -/
def conv2d {ci co h w k : ℕ} (s : ℕ) (hkh : k ≤ h) (hkw : k ≤ w)
    (wt : Fin co → Fin ci → Fin k → Fin k → ℝ) (b : Fin co → ℝ)
    (x : Fin ci → Fin h → Fin w → ℝ) :
    Fin co → Fin ((h - k) / s + 1) → Fin ((w - k) / s + 1) → ℝ :=
  fun o i j => b o + ∑ c, ∑ ki : Fin k, ∑ kj : Fin k,
    x c ⟨(i : ℕ) * s + (ki : ℕ), by
          calc (i : ℕ) * s + (ki : ℕ) < (i : ℕ) * s + k := Nat.add_lt_add_left ki.isLt _
            _ ≤ (h - k) / s * s + k :=
              Nat.add_le_add_right (Nat.mul_le_mul_right s (Nat.lt_succ_iff.mp i.isLt)) k
            _ ≤ (h - k) + k := Nat.add_le_add_right (Nat.div_mul_le_self _ _) k
            _ = h := Nat.sub_add_cancel hkh⟩
        ⟨(j : ℕ) * s + (kj : ℕ), by
          calc (j : ℕ) * s + (kj : ℕ) < (j : ℕ) * s + k := Nat.add_lt_add_left kj.isLt _
            _ ≤ (w - k) / s * s + k :=
              Nat.add_le_add_right (Nat.mul_le_mul_right s (Nat.lt_succ_iff.mp j.isLt)) k
            _ ≤ (w - k) + k := Nat.add_le_add_right (Nat.div_mul_le_self _ _) k
            _ = w := Nat.sub_add_cancel hkw⟩
      * wt o c ki kj

/-- Models `nn.Dropout(p)` in training mode with an explicit Bernoulli mask:
masked entries become 0, surviving entries are scaled by `1 / (1 - p)`. -/
def dropoutL {ch h w : ℕ} (p : ℝ) (m : Fin ch → Fin h → Fin w → Bool)
    (x : Fin ch → Fin h → Fin w → ℝ) : Fin ch → Fin h → Fin w → ℝ :=
  fun c i j => if m c i j then 0 else x c i j / (1 - p)

/-- The `Reshape((-1, 128, 7, 7))` layer (lines 181-187, 205), per sample:
view a 6272-vector as a `128 × 7 × 7` image, row-major. -/
def reshape128x7x7 (v : Fin 6272 → ℝ) : Fin 128 → Fin 7 → Fin 7 → ℝ :=
  fun c i j => v ⟨(c : ℕ) * 49 + (i : ℕ) * 7 + (j : ℕ), by
    have hc := c.isLt; have hi := i.isLt; have hj := j.isLt; omega⟩

/-- Models `nn.Flatten()` per sample: view a `64 × 6 × 6` image as a 2304-vector,
row-major. -/
def flatten64x6x6 (x : Fin 64 → Fin 6 → Fin 6 → ℝ) : Fin 2304 → ℝ :=
  fun v => x ⟨(v : ℕ) / 36, by have := v.isLt; omega⟩
    ⟨(v : ℕ) % 36 / 6, by have := v.isLt; omega⟩
    ⟨(v : ℕ) % 6, by have := v.isLt; omega⟩

/-- Models `torch.sigmoid`: `1 / (1 + exp (-x))`. -/
def sigmoid (x : ℝ) : ℝ := 1 / (1 + Real.exp (-x))

/-- Default `eps` of `nn.BatchNorm1d/2d`. -/
def bnEps : ℝ := 1e-5

/-- The trainable parameters of the generator stack (lines 198-219). -/
structure GenWeights where
  linW : Fin 6272 → Fin 100 → ℝ
  linB : Fin 6272 → ℝ
  bn1w : Fin 6272 → ℝ
  bn1b : Fin 6272 → ℝ
  ct1w : Fin 128 → Fin 128 → Fin 4 → Fin 4 → ℝ
  ct1b : Fin 128 → ℝ
  bn2w : Fin 128 → ℝ
  bn2b : Fin 128 → ℝ
  ct2w : Fin 128 → Fin 128 → Fin 4 → Fin 4 → ℝ
  ct2b : Fin 128 → ℝ
  bn3w : Fin 128 → ℝ
  bn3b : Fin 128 → ℝ
  cw : Fin 1 → Fin 128 → Fin 7 → Fin 7 → ℝ
  cb : Fin 1 → ℝ

/-- The generator's `nn.Sequential` (lines 198-219) up to and including
the final `nn.Conv2d(128, 1, 7)`, on a batch of latent vectors. -/
def generatorBody (wt : GenWeights) (zs : List (Fin 100 → ℝ)) :
    List (Fin 1 → Fin 28 → Fin 28 → ℝ) :=
  let h1 := zs.map (linearF wt.linW wt.linB)
  let h2 := batchNorm1d wt.bn1w wt.bn1b bnEps h1
  let h3 := h2.map (fun v j => leakyReLU 0.2 (v j))
  let h4 := h3.map reshape128x7x7
  let h5 := h4.map (convTranspose2d 2 wt.ct1w wt.ct1b)
  let h6 := batchNorm2d wt.bn2w wt.bn2b bnEps h5
  let h7 := h6.map (fun v c i j => leakyReLU 0.2 (v c i j))
  let h8 := h7.map (convTranspose2d 2 wt.ct2w wt.ct2b)
  let h9 := batchNorm2d wt.bn3w wt.bn3b bnEps h8
  let h10 := h9.map (fun v c i j => leakyReLU 0.2 (v c i j))
  h10.map (conv2d 1 (by decide) (by decide) wt.cw wt.cb)

/-- Training-mode forward pass of the generator's `nn.Sequential`
(lines 198-219) on a batch of latent vectors: the body above followed by
the closing `nn.Tanh()`. -/
def generatorForward (wt : GenWeights) (zs : List (Fin 100 → ℝ)) :
    List (Fin 1 → Fin 28 → Fin 28 → ℝ) :=
  (generatorBody wt zs).map (fun v c i j => Real.tanh (v c i j))

/-- The trainable parameters of the discriminator stack (lines 247-259). -/
structure DiscWeights where
  c1w : Fin 64 → Fin 1 → Fin 3 → Fin 3 → ℝ
  c1b : Fin 64 → ℝ
  c2w : Fin 64 → Fin 64 → Fin 3 → Fin 3 → ℝ
  c2b : Fin 64 → ℝ
  lw : Fin 1 → Fin 2304 → ℝ
  lb : Fin 1 → ℝ

/-- Training-mode forward pass of the discriminator's `nn.Sequential`
(lines 247-259) on one `1 × 28 × 28` image, with the two dropout masks
explicit. -/
def discriminatorSample (wt : DiscWeights)
    (m1 : Fin 64 → Fin 13 → Fin 13 → Bool) (m2 : Fin 64 → Fin 6 → Fin 6 → Bool)
    (x : Fin 1 → Fin 28 → Fin 28 → ℝ) : Fin 1 → ℝ :=
  let h1 := conv2d 2 (by decide) (by decide) wt.c1w wt.c1b x
  let h2 := fun c i j => leakyReLU 0.2 (h1 c i j)
  let h3 := dropoutL 0.4 m1 h2
  let h4 := conv2d 2 (by decide) (by decide) wt.c2w wt.c2b h3
  let h5 := fun c i j => leakyReLU 0.2 (h4 c i j)
  let h6 := dropoutL 0.4 m2 h5
  let h7 := flatten64x6x6 h6
  let h8 := linearF wt.lw wt.lb h7
  fun j => sigmoid (h8 j)

/-- Discriminator forward on a batch: per-sample application, with
independent dropout masks per batch position `k0`. -/
def discriminatorForward (wt : DiscWeights)
    (m1s : ℕ → Fin 64 → Fin 13 → Fin 13 → Bool)
    (m2s : ℕ → Fin 64 → Fin 6 → Fin 6 → Bool) (k0 : ℕ) :
    List (Fin 1 → Fin 28 → Fin 28 → ℝ) → List (Fin 1 → ℝ)
  | [] => []
  | x :: xs =>
      discriminatorSample wt (m1s k0) (m2s k0) x ::
        discriminatorForward wt m1s m2s (k0 + 1) xs

end

/-! ### Concrete instantiations used to exercise the frame theorems. -/

/-- A concrete optimizer update rule: increment every stepped parameter. -/
def updEx : ℚ → ℚ → ℚ := fun w _ => w + 1

/-- A concrete gradient contribution. -/
def gradEx : PId → ℚ := fun _ => 1

/-- A concrete training state: all parameters and gradients zero. -/
def stEx : AGState := ⟨fun _ => 0, fun _ => 0⟩

end MnistGan

/-! ## Theorems -/

namespace MnistGan

/-- Hyperbolic tangent is bounded above by 1. -/
theorem tanh_le_one (x : ℝ) : Real.tanh x ≤ 1 := by
  rw [Real.tanh_eq_sinh_div_cosh, div_le_one (Real.cosh_pos x)]
  have h := Real.cosh_sub_sinh x
  have hp := Real.exp_pos (-x)
  linarith

/-- Hyperbolic tangent is bounded below by -1. -/
theorem neg_one_le_tanh (x : ℝ) : -1 ≤ Real.tanh x := by
  rw [Real.tanh_eq_sinh_div_cosh, le_div_iff₀ (Real.cosh_pos x)]
  have h := Real.cosh_add_sinh x
  have hp := Real.exp_pos x
  nlinarith

/-- The sigmoid is nonnegative. -/
theorem sigmoid_nonneg (x : ℝ) : 0 ≤ sigmoid x := by
  unfold sigmoid
  positivity

/-- The sigmoid is bounded above by 1. -/
theorem sigmoid_le_one (x : ℝ) : sigmoid x ≤ 1 := by
  unfold sigmoid
  rw [div_le_one (by positivity)]
  have := Real.exp_pos (-x)
  linarith

/-- Postcomposing a mapped layer with a picked component keeps any bounds
the layer's outputs satisfy, also through the `Option.elim 0` default. -/
theorem getElem?_elim_bounds {α β : Type} (lo hi : ℝ) (hlo : lo ≤ 0) (hhi : 0 ≤ hi)
    (l : List α) (f : α → β) (pick : β → ℝ)
    (hb : ∀ a, lo ≤ pick (f a) ∧ pick (f a) ≤ hi) (n : ℕ) :
    lo ≤ ((l.map f)[n]?.elim 0 pick) ∧ ((l.map f)[n]?.elim 0 pick) ≤ hi := by
  rw [List.getElem?_map]
  cases h : l[n]? with
  | none => simpa using ⟨hlo, hhi⟩
  | some a => simpa using hb a

theorem batchNorm1d_length {n : ℕ} (g b : Fin n → ℝ) (e : ℝ)
    (xs : List (Fin n → ℝ)) : (batchNorm1d g b e xs).length = xs.length := by
  simp [batchNorm1d]

theorem batchNorm2d_length {ch h w : ℕ} (g b : Fin ch → ℝ) (e : ℝ)
    (xs : List (Fin ch → Fin h → Fin w → ℝ)) :
    (batchNorm2d g b e xs).length = xs.length := by
  simp [batchNorm2d]

theorem discriminatorForward_length (wt : DiscWeights)
    (m1s : ℕ → Fin 64 → Fin 13 → Fin 13 → Bool)
    (m2s : ℕ → Fin 64 → Fin 6 → Fin 6 → Bool) :
    ∀ (k0 : ℕ) (xs : List (Fin 1 → Fin 28 → Fin 28 → ℝ)),
      (discriminatorForward wt m1s m2s k0 xs).length = xs.length := by
  intro k0 xs
  induction xs generalizing k0 with
  | nil => rfl
  | cons x xs ih => simp [discriminatorForward, ih]

/-- Claim C5. For every latent batch, the generator returns one image per
latent vector; every image has the fixed `1 × 28 × 28` resolution (the
size arithmetic of the stack lands exactly on 28), and — because the last
layer is `tanh` — every pixel lies in `[-1, 1]`. -/
theorem claim_C5_generator_output :
    convSize (convTransposeSize (convTransposeSize 7 4 2) 4 2) 7 1 = 28 ∧
    (∀ (wt : GenWeights) (zs : List (Fin LATENT_DIM → ℝ)),
      (generatorForward wt zs).length = zs.length) ∧
    (∀ (wt : GenWeights) (zs : List (Fin LATENT_DIM → ℝ)) (n : ℕ)
      (c : Fin 1) (i j : Fin 28),
      -1 ≤ ((generatorForward wt zs)[n]?.elim 0 fun img => img c i j) ∧
      ((generatorForward wt zs)[n]?.elim 0 fun img => img c i j) ≤ 1) := by
  refine ⟨by decide, ?_, ?_⟩
  · intro wt zs
    simp [generatorForward, generatorBody, batchNorm1d, batchNorm2d]
  · intro wt zs n c i j
    rw [generatorForward]
    exact getElem?_elim_bounds (-1) 1 (by norm_num) (by norm_num)
      (generatorBody wt zs) (fun v c i j => Real.tanh (v c i j))
      (fun img => img c i j) (fun a => ⟨neg_one_le_tanh _, tanh_le_one _⟩) n

/-- Claim C6. For every batch of `1 × 28 × 28` images, the discriminator
returns one scalar per image, and — because the last layer is a sigmoid —
every returned scalar lies in `[0, 1]`.  (The size arithmetic of the two
stride-2 convolutions lands exactly on the `64 · 6 · 6 = 2304` features the
final linear layer consumes.) -/
theorem claim_C6_discriminator_output :
    convSize (convSize 28 3 2) 3 2 = 6 ∧ 64 * 6 * 6 = 2304 ∧
    (∀ (wt : DiscWeights) (m1s : ℕ → Fin 64 → Fin 13 → Fin 13 → Bool)
      (m2s : ℕ → Fin 64 → Fin 6 → Fin 6 → Bool) (k0 : ℕ)
      (xs : List (Fin 1 → Fin 28 → Fin 28 → ℝ)),
      (discriminatorForward wt m1s m2s k0 xs).length = xs.length) ∧
    (∀ (wt : DiscWeights) (m1s : ℕ → Fin 64 → Fin 13 → Fin 13 → Bool)
      (m2s : ℕ → Fin 64 → Fin 6 → Fin 6 → Bool) (k0 : ℕ)
      (xs : List (Fin 1 → Fin 28 → Fin 28 → ℝ)) (n : ℕ) (jj : Fin 1),
      0 ≤ ((discriminatorForward wt m1s m2s k0 xs)[n]?.elim 0 fun v => v jj) ∧
      ((discriminatorForward wt m1s m2s k0 xs)[n]?.elim 0 fun v => v jj) ≤ 1) := by
  refine ⟨by decide, by decide, discriminatorForward_length, ?_⟩
  intro wt m1s m2s k0 xs n jj
  induction xs generalizing k0 n with
  | nil => simp [discriminatorForward]
  | cons x xs ih =>
    cases n with
    | zero =>
      simp only [discriminatorForward, List.getElem?_cons_zero, Option.elim,
        discriminatorSample]
      exact ⟨sigmoid_nonneg _, sigmoid_le_one _⟩
    | succ n =>
      simpa only [discriminatorForward, List.getElem?_cons_succ] using ih (k0 + 1) n

end MnistGan

namespace MnistGan

/-- Claim C1. After one discriminator training step (Phase 1, lines 318-334),
every generator parameter — and, because the fake half-batch is detached,
every generator gradient — is unchanged, while every discriminator
parameter may change (only the discriminator optimizer steps). -/
theorem claim_C1_discriminator_step_frame :
    (∀ upd g st p, p.net = NetTag.gen →
      (phase1 upd g st).params p = st.params p ∧
      (phase1 upd g st).grads p = st.grads p) ∧
    (∀ p : PId, p.net = NetTag.disc →
      ∃ upd g st, (phase1 upd g st).params p ≠ st.params p) := by
  constructor
  · rintro upd g st ⟨net, idx⟩ hp
    cases net
    · simp [phase1, train_on, optStep, backward, zeroGrad, modelPredict,
        modelApply, criterionApply, Tens.detach, Tens.cat, Tens.leaf,
        discMask, genMask]
    · simp at hp
  · rintro ⟨net, idx⟩ hp
    cases net
    · simp at hp
    · refine ⟨fun w _ => w + 1, fun _ => 0, ⟨fun _ => 0, fun _ => 0⟩, ?_⟩
      simp [phase1, train_on, optStep, backward, zeroGrad, modelPredict,
        modelApply, criterionApply, Tens.detach, Tens.cat, Tens.leaf,
        discMask, genMask]

/-- Witness for C1: the frame part evaluated at a concrete update rule,
gradient, state and generator parameter. -/
theorem claim_C1_witness :
    (phase1 updEx gradEx stEx).params ⟨NetTag.gen, 0⟩ = stEx.params ⟨NetTag.gen, 0⟩ ∧
    (phase1 updEx gradEx stEx).grads ⟨NetTag.gen, 0⟩ = stEx.grads ⟨NetTag.gen, 0⟩ :=
  claim_C1_discriminator_step_frame.1 updEx gradEx stEx ⟨NetTag.gen, 0⟩ rfl

/-- Claim C2. After one generator training step (Phase 2, lines 339-347),
every discriminator parameter is unchanged although the loss's gradient is
accumulated into the discriminator's gradients (the generated batch is not
detached), while every generator parameter may change (only the generator
optimizer steps). -/
theorem claim_C2_generator_step_frame :
    (∀ upd g st p, p.net = NetTag.disc →
      (phase2 upd g st).params p = st.params p ∧
      (phase2 upd g st).grads p = st.grads p + g p) ∧
    (∀ p : PId, p.net = NetTag.gen →
      ∃ upd g st, (phase2 upd g st).params p ≠ st.params p) := by
  constructor
  · rintro upd g st ⟨net, idx⟩ hp
    cases net
    · simp at hp
    · simp [phase2, optStep, backward, zeroGrad, modelApply, criterionApply,
        Tens.leaf, discMask, genMask]
  · rintro ⟨net, idx⟩ hp
    cases net
    · refine ⟨fun w _ => w + 1, fun _ => 0, ⟨fun _ => 0, fun _ => 0⟩, ?_⟩
      simp [phase2, optStep, backward, zeroGrad, modelApply, criterionApply,
        Tens.leaf, discMask, genMask]
    · simp at hp

/-- Witness for C2: the frame part evaluated at a concrete update rule,
gradient, state and discriminator parameter. -/
theorem claim_C2_witness :
    (phase2 updEx gradEx stEx).params ⟨NetTag.disc, 0⟩ = stEx.params ⟨NetTag.disc, 0⟩ ∧
    (phase2 updEx gradEx stEx).grads ⟨NetTag.disc, 0⟩ =
      stEx.grads ⟨NetTag.disc, 0⟩ + gradEx ⟨NetTag.disc, 0⟩ :=
  claim_C2_generator_step_frame.1 updEx gradEx stEx ⟨NetTag.disc, 0⟩ rfl

/-- Counterexample to claim C4. The first learned upsampling stage of the
generator (`nn.ConvTranspose2d(128, 128, 4, stride=2)` on the `7 × 7`
projection, layers 0-4 of the stack) produces a `16 × 16` feature map, not
the doubled `14 × 14` the claim states. -/
theorem claim_C4_counterexample :
    runShape (generatorLayers.take 5) (Shape.flat LATENT_DIM) =
      some (Shape.img 128 16 16) ∧ (16 : ℕ) ≠ 2 * 7 := by
  decide

/-- Claim C4, amended. With padding 0, each `ConvTranspose2d(·, ·, 4,
stride=2)` stage maps spatial size `h` to `2·(h−1)+4`, taking the `7 × 7`
projection to `16 × 16` and then `34 × 34` — not to `14 × 14` and
`28 × 28`; each stage is followed by `BatchNorm2d` and `LeakyReLU`, and the
final kernel-7 convolution to one channel (followed by `tanh`) reduces
`34 × 34` to `28 × 28`. -/
theorem claim_C4_upsampling_sizes :
    runShape (generatorLayers.take 5) (Shape.flat LATENT_DIM) =
      some (Shape.img 128 16 16) ∧
    runShape (generatorLayers.take 8) (Shape.flat LATENT_DIM) =
      some (Shape.img 128 34 34) ∧
    runShape generatorLayers (Shape.flat LATENT_DIM) =
      some (Shape.img 1 28 28) ∧
    convTransposeSize 7 4 2 = 16 ∧ convTransposeSize 16 4 2 = 34 ∧
    convSize 34 7 1 = 28 ∧
    generatorLayers[5]? = some (Layer.batchNorm2d 128) ∧
    generatorLayers[6]? = some (Layer.leakyReLU (1 / 5)) ∧
    generatorLayers[8]? = some (Layer.batchNorm2d 128) ∧
    generatorLayers[9]? = some (Layer.leakyReLU (1 / 5)) ∧
    generatorLayers[10]? = some (Layer.conv2d 128 1 7 1) ∧
    generatorLayers[11]? = some Layer.tanh := by
  refine ⟨by decide, by decide, by decide, by decide, by decide, by decide,
    rfl, rfl, rfl, rfl, rfl, rfl⟩

/-- Claim C7. The combined label tensor of the discriminator phase has length
`BATCH_SIZE`; its first half (the real images' positions) is the real label
1 and its second half (the fake images' positions) is the fake label 0. -/
theorem claim_C7_labels :
    labels_all.length = BATCH_SIZE ∧
    (∀ j, j < halfBatch → labels_all[j]? = some REAL_LABEL) ∧
    (∀ j, halfBatch ≤ j → j < BATCH_SIZE → labels_all[j]? = some FAKE_LABEL) := by
  refine ⟨by simp [labels_all, real_labels, fake_labels]; decide, ?_, ?_⟩
  · intro j hj
    have hlen : j < real_labels.length := by
      simpa [real_labels] using hj
    rw [labels_all, List.getElem?_append_left hlen, real_labels,
      List.getElem?_replicate_of_lt (by simpa [real_labels] using hlen)]
  · intro j hj1 hj2
    have hlen : real_labels.length ≤ j := by
      simpa [real_labels] using hj1
    rw [labels_all, List.getElem?_append_right hlen, fake_labels,
      List.getElem?_replicate_of_lt ?_]
    have : real_labels.length = halfBatch := by simp [real_labels]
    have hB : BATCH_SIZE = halfBatch + halfBatch := by decide
    omega

/-- Witness for C7: the first entry carries the real label and entry 100
(the first fake position) carries the fake label. -/
theorem claim_C7_witness :
    labels_all[0]? = some REAL_LABEL ∧ labels_all[100]? = some FAKE_LABEL :=
  ⟨claim_C7_labels.2.1 0 (by decide), claim_C7_labels.2.2 100 (by decide) (by decide)⟩

/-- Core bound for decimal renderings: `Nat.toDigitsCore` emits at most `k`
digits for an input below `10 ^ k` (fuel shortage only shortens output). -/
theorem toDigitsCore_length_le :
    ∀ (fuel k n : ℕ) (ds : List Char), n < 10 ^ k → 1 ≤ k →
      (Nat.toDigitsCore 10 fuel n ds).length ≤ k + ds.length := by
  intro fuel
  induction fuel with
  | zero =>
    intro k n ds _ _
    simp only [Nat.toDigitsCore]
    omega
  | succ fuel ih =>
    intro k n ds h hk
    simp only [Nat.toDigitsCore]
    split
    · simp only [List.length_cons]
      omega
    · rename_i hne
      have h10 : 10 ≤ n := by
        rcases Nat.lt_or_ge n 10 with hlt | hge
        · exact absurd (Nat.div_eq_of_lt hlt) hne
        · exact hge
      have hk2 : 2 ≤ k := by
        rcases Nat.lt_or_ge k 2 with hlt | hge
        · exfalso
          have hk1 : k = 1 := by omega
          rw [hk1, pow_one] at h
          omega
        · exact hge
      have hpow : 10 ^ k = 10 ^ (k - 1) * 10 := by
        rw [← pow_succ]
        congr 1
        omega
      have hdiv : n / 10 < 10 ^ (k - 1) := by
        rw [Nat.div_lt_iff_lt_mul (by norm_num)]
        omega
      have := ih (k - 1) (n / 10) (Nat.digitChar (n % 10) :: ds) hdiv (by omega)
      simp only [List.length_cons] at this
      omega

/-- The decimal rendering of `n < 10 ^ k` has at most `k` characters. -/
theorem repr_length_le (k n : ℕ) (h : n < 10 ^ k) (hk : 1 ≤ k) :
    (Nat.repr n).length ≤ k := by
  have := toDigitsCore_length_le (n + 1) k n [] h hk
  simpa [Nat.repr, Nat.toDigits, List.asString] using this

/-- Zero-padding to width `w` yields exactly width `w` whenever the plain
rendering is no longer than `w`. -/
theorem padZeros_length (w n : ℕ) (h : (Nat.repr n).length ≤ w) :
    (padZeros w n).length = w := by
  unfold padZeros
  dsimp only
  split
  · simp only [String.length_append, String.length_mk, List.length_replicate]
    omega
  · omega

/-- Claim C8. The logging/snapshot branch runs exactly on batch indices that
are multiples of 25 (in particular on batch 0 of every epoch), and the
snapshot file name is `figs/plot  epoch <epoch>  batch <i>.png` with the
epoch zero-padded to 2 digits and the batch index zero-padded to 5 digits
(exact widths for every epoch < 100 and batch index < 100000, which the
configured run satisfies). -/
theorem claim_C8_logging :
    (∀ i : ℕ, logAt i = true ↔ 25 ∣ i) ∧
    logAt 0 = true ∧
    (∀ epoch i : ℕ, snapshotName epoch i =
      "figs/plot  epoch " ++ padZeros 2 epoch ++ "  batch " ++ padZeros 5 i ++ ".png") ∧
    (∀ epoch, epoch < 100 → (padZeros 2 epoch).length = 2) ∧
    (∀ i, i < 100000 → (padZeros 5 i).length = 5) := by
  refine ⟨?_, rfl, fun _ _ => rfl, ?_, ?_⟩
  · intro i
    simp [logAt, Nat.dvd_iff_mod_eq_zero]
  · intro epoch h
    exact padZeros_length 2 epoch (repr_length_le 2 epoch (by omega) (by omega))
  · intro i h
    exact padZeros_length 5 i (repr_length_le 5 i (by omega) (by omega))

/-- Witness for C8: the guard and file name at epoch 3, batch 125. -/
theorem claim_C8_witness :
    ((logAt 125 = true ↔ 25 ∣ 125) ∧ (padZeros 2 3).length = 2 ∧
      (padZeros 5 125).length = 5) :=
  ⟨claim_C8_logging.1 125, claim_C8_logging.2.2.2.1 3 (by decide),
    claim_C8_logging.2.2.2.2 125 (by decide)⟩

end MnistGan

namespace VideoGen

/-- Digits produced by `Nat.digitChar` are never a space. -/
theorem digitChar_ne_space (n : ℕ) : Nat.digitChar n ≠ ' ' := by
  rcases Nat.lt_or_ge n 16 with h16 | h16
  · interval_cases n <;> decide
  · unfold Nat.digitChar
    repeat rw [if_neg (by omega : ¬_)]
    decide

/-- Digit accumulation by `Nat.toDigitsCore` preserves spacelessness of the accumulator. -/
theorem toDigitsCore_ne_space :
    ∀ (fuel n : ℕ) (ds : List Char), (∀ c ∈ ds, c ≠ ' ') →
      ∀ c ∈ Nat.toDigitsCore 10 fuel n ds, c ≠ ' ' := by
  intro fuel
  induction fuel with
  | zero =>
    intro n ds h
    simpa [Nat.toDigitsCore] using h
  | succ fuel ih =>
    intro n ds h c hc
    simp only [Nat.toDigitsCore] at hc
    split at hc
    · rcases List.mem_cons.mp hc with rfl | hmem
      · exact digitChar_ne_space _
      · exact h c hmem
    · refine ih (n / 10) (Nat.digitChar (n % 10) :: ds) ?_ c hc
      intro x hx
      rcases List.mem_cons.mp hx with rfl | hmem
      · exact digitChar_ne_space _
      · exact h x hmem

/-- The decimal rendering of a natural number contains no space. -/
theorem repr_no_space (n : ℕ) : ' ' ∉ (Nat.repr n).data := by
  intro hmem
  exact toDigitsCore_ne_space (n + 1) n [] (by simp) ' ' hmem rfl

/-- The `%i` rendering of an integer contains no space. -/
theorem intStr_no_space (r : Int) : ' ' ∉ (intStr r).data := by
  cases r with
  | ofNat m => exact repr_no_space m
  | negSucc m =>
    intro hmem
    rw [intStr, String.data_append] at hmem
    rcases List.mem_append.mp hmem with hm | hm
    · simp at hm
    · exact repr_no_space (m + 1) hm

/-- A spaceless character list tokenizes to itself. -/
theorem tokenize_nospace (l : List Char) (h : ' ' ∉ l) : tokenize l = [l] := by
  induction l with
  | nil => rfl
  | cons c cs ih =>
    simp only [List.mem_cons, not_or] at h
    have hc : ¬(c = ' ') := fun e => h.1 e.symm
    simp only [tokenize]
    rw [if_neg hc, ih h.2]
    rfl

/-- Tokenizing past the first space splits off a spaceless head token. -/
theorem tokenize_append (l r : List Char) (h : ' ' ∉ l) :
    tokenize (l ++ ' ' :: r) = l :: tokenize r := by
  induction l with
  | nil => simp [tokenize]
  | cons c cs ih =>
    simp only [List.mem_cons, not_or] at h
    have hc : ¬(c = ' ') := fun e => h.1 e.symm
    simp only [List.cons_append, tokenize, List.append_eq]
    rw [if_neg hc, ih h.2]
    rfl

/-- Variant of `tokenize_append` for a head token split into three append chunks. -/
theorem tokenize_append3 (a b c r : List Char) (h : ' ' ∉ a ++ (b ++ c)) :
    tokenize (a ++ (b ++ (c ++ ' ' :: r))) = (a ++ (b ++ c)) :: tokenize r := by
  have := tokenize_append (a ++ (b ++ c)) r h
  simpa [List.append_assoc] using this

/-- The character data of the built command, regrouped around its spaces. -/
theorem data_command (f : String) (r : Int) (o : String) :
    (command f r o).data =
      "ffmpeg".data ++ ' ' :: ("-framerate".data ++ ' ' :: ((intStr r).data ++ ' ' ::
        ("-pattern_type".data ++ ' ' :: ("glob".data ++ ' ' :: ("-i".data ++ ' ' ::
          ("'".data ++ (f.data ++ ("*.png'".data ++ ' ' :: ("-c:v".data ++ ' ' ::
            ("libx264".data ++ ' ' :: o.data)))))))))) := by
  have e1 : ("ffmpeg -framerate " : String).data =
      "ffmpeg".data ++ ' ' :: ("-framerate".data ++ [' ']) := by decide
  have e2 : (" -pattern_type glob -i '" : String).data =
      ' ' :: ("-pattern_type".data ++ ' ' :: ("glob".data ++ ' ' ::
        ("-i".data ++ ' ' :: "'".data))) := by decide
  have e3 : ("*.png' -c:v libx264 " : String).data =
      "*.png'".data ++ ' ' :: ("-c:v".data ++ ' ' :: ("libx264".data ++ [' '])) := by decide
  simp [command, String.data_append, e1, e2, e3, List.append_assoc]

/-- The whitespace tokens of the built command, for spaceless `--figs` and
`--out` values: one token per syntactic element, in order. -/
theorem tokens_command (f : String) (r : Int) (o : String)
    (hf : ' ' ∉ f.data) (ho : ' ' ∉ o.data) :
    tokens (command f r o) =
      ["ffmpeg".data, "-framerate".data, (intStr r).data, "-pattern_type".data,
        "glob".data, "-i".data, "'".data ++ (f.data ++ "*.png'".data),
        "-c:v".data, "libx264".data, o.data] := by
  rw [tokens, data_command]
  rw [tokenize_append _ _ (by decide)]
  rw [tokenize_append _ _ (by decide)]
  rw [tokenize_append _ _ (intStr_no_space r)]
  rw [tokenize_append _ _ (by decide)]
  rw [tokenize_append _ _ (by decide)]
  rw [tokenize_append _ _ (by decide)]
  rw [tokenize_append3 _ _ _ _ ?h6]
  case h6 =>
    intro hm
    rcases List.mem_append.mp hm with hm1 | hm2
    · simp at hm1
    · rcases List.mem_append.mp hm2 with hm3 | hm4
      · exact hf hm3
      · simp at hm4
  rw [tokenize_append _ _ (by decide)]
  rw [tokenize_append _ _ (by decide)]
  rw [tokenize_nospace _ ho]

/-- Digit accumulation by `Nat.toDigitsCore` never shortens its accumulator. -/
theorem toDigitsCore_length_mono :
    ∀ (fuel n : ℕ) (ds : List Char),
      ds.length ≤ (Nat.toDigitsCore 10 fuel n ds).length := by
  intro fuel
  induction fuel with
  | zero =>
    intro n ds
    simp [Nat.toDigitsCore]
  | succ fuel ih =>
    intro n ds
    simp only [Nat.toDigitsCore]
    split
    · simp
    · calc ds.length ≤ (Nat.digitChar (n % 10) :: ds).length := by simp
        _ ≤ _ := ih (n / 10) _

/-- With fuel available, `Nat.toDigitsCore` emits at least one digit. -/
theorem toDigitsCore_length_succ (fuel n : ℕ) (ds : List Char) :
    ds.length + 1 ≤ (Nat.toDigitsCore 10 (fuel + 1) n ds).length := by
  simp only [Nat.toDigitsCore]
  split
  · simp
  · have := toDigitsCore_length_mono fuel (n / 10) (Nat.digitChar (n % 10) :: ds)
    simpa using this

/-- A natural number below 10 renders as its single digit character. -/
theorem toDigits_single (n : ℕ) (h : n < 10) :
    Nat.toDigits 10 n = [Nat.digitChar n] := by
  unfold Nat.toDigits
  simp [Nat.toDigitsCore, Nat.div_eq_of_lt h, Nat.mod_eq_of_lt h]

/-- The only natural number rendering as `"4"` is 4. -/
theorem repr_eq_four {n : ℕ} (h : Nat.repr n = "4") : n = 4 := by
  have hd : Nat.toDigits 10 n = ['4'] := congrArg String.data h
  rcases Nat.lt_or_ge n 10 with h10 | h10
  · rw [toDigits_single n h10] at hd
    have hc : Nat.digitChar n = '4' := by
      injection hd
    interval_cases n <;> revert hc <;> decide
  · exfalso
    have hlen : (Nat.toDigits 10 n).length = 1 := by rw [hd]; rfl
    unfold Nat.toDigits at hlen
    simp only [Nat.toDigitsCore] at hlen
    split at hlen
    · rename_i heq
      omega
    · obtain ⟨m, rfl⟩ : ∃ m, n = m + 1 := ⟨n - 1, by omega⟩
      have hge := toDigitsCore_length_succ m ((m + 1) / 10)
        [Nat.digitChar ((m + 1) % 10)]
      simp only [List.length_cons, List.length_nil] at hge
      omega

/-- The only integer whose `%i` rendering is `"4"` is 4. -/
theorem intStr_eq_four {r : Int} (h : intStr r = "4") : r = 4 := by
  cases r with
  | ofNat m =>
    have hm : m = 4 := repr_eq_four h
    simp [hm]
  | negSucc m =>
    exfalso
    have hd := congrArg String.data h
    rw [intStr, String.data_append] at hd
    have hminus : (("-" : String)).data = ['-'] := rfl
    rw [hminus] at hd
    simp at hd

/-- Two explicit 10-token lists differing only at index 2. -/
theorem diffAt_two {x y a0 a1 a3 a4 a5 a6 a7 a8 a9 : List Char} (hxy : x ≠ y) :
    diffExactlyAt [a0, a1, x, a3, a4, a5, a6, a7, a8, a9]
      [a0, a1, y, a3, a4, a5, a6, a7, a8, a9] 2 := by
  refine ⟨rfl, by simpa using hxy, ?_⟩
  intro j hj
  rcases j with _ | _ | _ | _ | _ | _ | _ | _ | _ | _ | j
  · rfl
  · rfl
  · exact absurd rfl hj
  · rfl
  · rfl
  · rfl
  · rfl
  · rfl
  · rfl
  · rfl
  · rfl

/-- Two explicit 10-token lists differing only at index 6. -/
theorem diffAt_six {x y a0 a1 a2 a3 a4 a5 a7 a8 a9 : List Char} (hxy : x ≠ y) :
    diffExactlyAt [a0, a1, a2, a3, a4, a5, x, a7, a8, a9]
      [a0, a1, a2, a3, a4, a5, y, a7, a8, a9] 6 := by
  refine ⟨rfl, by simpa using hxy, ?_⟩
  intro j hj
  rcases j with _ | _ | _ | _ | _ | _ | _ | _ | _ | _ | j
  · rfl
  · rfl
  · rfl
  · rfl
  · rfl
  · rfl
  · exact absurd rfl hj
  · rfl
  · rfl
  · rfl
  · rfl

/-- Two explicit 10-token lists differing only at index 9. -/
theorem diffAt_nine {x y a0 a1 a2 a3 a4 a5 a6 a7 a8 : List Char} (hxy : x ≠ y) :
    diffExactlyAt [a0, a1, a2, a3, a4, a5, a6, a7, a8, x]
      [a0, a1, a2, a3, a4, a5, a6, a7, a8, y] 9 := by
  refine ⟨rfl, by simpa using hxy, ?_⟩
  intro j hj
  rcases j with _ | _ | _ | _ | _ | _ | _ | _ | _ | _ | j
  · rfl
  · rfl
  · rfl
  · rfl
  · rfl
  · rfl
  · rfl
  · rfl
  · rfl
  · exact absurd rfl hj
  · rfl

/-- Claim C3. With all defaults the built command is exactly the documented
string; overriding one flag with a single (spaceless) value different from
its default changes exactly the one whitespace token corresponding to that
flag — index 2 for `--framerate`, index 6 for `--figs`, index 9 for
`--out` — and no other token. -/
theorem claim_C3_command_string :
    defaultCommand =
      "ffmpeg -framerate 4 -pattern_type glob -i 'figs/*.png' -c:v libx264 mnist-gan.mp4" ∧
    (∀ f : String, ' ' ∉ f.data → f ≠ "figs/" →
      diffExactlyAt (tokens (command f 4 "mnist-gan.mp4")) (tokens defaultCommand) 6) ∧
    (∀ r : Int, r ≠ 4 →
      diffExactlyAt (tokens (command "figs/" r "mnist-gan.mp4")) (tokens defaultCommand) 2) ∧
    (∀ o : String, ' ' ∉ o.data → o ≠ "mnist-gan.mp4" →
      diffExactlyAt (tokens (command "figs/" 4 o)) (tokens defaultCommand) 9) := by
  have hfigs : ' ' ∉ ("figs/" : String).data := by decide
  have hout : ' ' ∉ ("mnist-gan.mp4" : String).data := by decide
  have hdef := tokens_command "figs/" 4 "mnist-gan.mp4" hfigs hout
  refine ⟨by decide, ?_, ?_, ?_⟩
  · intro f hf hne
    rw [tokens_command f 4 "mnist-gan.mp4" hf hout, defaultCommand, hdef]
    refine diffAt_six ?_
    intro heq
    apply hne
    apply String.ext
    exact List.append_cancel_right (List.append_cancel_left heq)
  · intro r hr
    rw [tokens_command "figs/" r "mnist-gan.mp4" hfigs hout, defaultCommand, hdef]
    refine diffAt_two ?_
    intro heq
    apply hr
    apply intStr_eq_four
    apply String.ext
    exact heq
  · intro o ho hne
    rw [tokens_command "figs/" 4 o hfigs ho, defaultCommand, hdef]
    refine diffAt_nine ?_
    intro heq
    exact hne (String.ext heq)

/-- Witness for C3: one concrete override per flag. -/
theorem claim_C3_witness :
    diffExactlyAt (tokens (command "imgs/" 4 "mnist-gan.mp4")) (tokens defaultCommand) 6 ∧
    diffExactlyAt (tokens (command "figs/" 12 "mnist-gan.mp4")) (tokens defaultCommand) 2 ∧
    diffExactlyAt (tokens (command "figs/" 4 "out.mp4")) (tokens defaultCommand) 9 :=
  ⟨claim_C3_command_string.2.1 "imgs/" (by decide) (by decide),
    claim_C3_command_string.2.2.1 12 (by decide),
    claim_C3_command_string.2.2.2 "out.mp4" (by decide) (by decide)⟩

/-- Claim C10. The glob pattern handed to ffmpeg is the `--figs` value
concatenated directly with `*.png` — the program inserts no path
separator: the command embeds `'<figs>*.png'` verbatim, the default's
slash comes only from the default value `figs/` itself, and the pattern
contains a slash exactly when the `--figs` value does. -/
theorem claim_C10_glob_pattern :
    (∀ (f : String) (r : Int) (o : String),
      command f r o = "ffmpeg -framerate " ++ intStr r ++ " -pattern_type glob -i '"
        ++ globPattern f ++ "' -c:v libx264 " ++ o) ∧
    globPattern "figs/" = "figs/*.png" ∧
    (∀ f : String, '/' ∈ (globPattern f).data ↔ '/' ∈ f.data) := by
  refine ⟨?_, by decide, ?_⟩
  · intro f r o
    apply String.ext
    have e : ("*.png' -c:v libx264 " : String).data =
        "*.png".data ++ "' -c:v libx264 ".data := by decide
    simp [command, globPattern, String.data_append, e, List.append_assoc]
  · intro f
    have e : '/' ∉ ("*.png" : String).data := by decide
    simp [globPattern, String.data_append, List.mem_append, e]

end VideoGen

namespace MnistGan

/-- Claim C9. The thirty snapshot grid cells are slices `fake_imgs[a, 0]` for
`a < 30` of the discriminator phase's detached fake batch
(`generator.predict(latent_points).detach()`); none of them reaches the
generator phase's freshly generated batch `generator_imgs`. -/
theorem claim_C9_snapshot_source :
    snapshotImages = (List.range 30).map
      (fun a => TensorSrc.index (.detach (.genPredict .latentPoints)) a 0) ∧
    snapshotImages.length = 30 ∧
    snapshotImages.all (fun t => usesPhase2Batch t == false) = true ∧
    generator_imgs = TensorSrc.genForward .fakeBatchLatent ∧
    fake_imgs ≠ generator_imgs := by
  decide

end MnistGan
